import Mathlib

/-!
Verification development for the LunaTrack record store and estimation
pipeline.  The definitions below are a shallow embedding of the JavaScript
sources:

* `src/chrome-extension/lib/storage.js` — the `RecordStorage` object
  (`getAllRecords`, `saveRecord`, `updateRecord`, `deleteRecord`,
  `exportToJSON`, `importFromJSON`);
* `src/chrome-extension/lib/prompt-api.js` — the result-validation and
  confidence-classification logic of `estimateFlowFromImage`;
* the popup script — `handleSave`, `extractEXIFData`, `parseEXIFDate`.

Modelling conventions: the `chrome.storage.local` value under
`STORAGE_KEY` is a `List Record` (absent key = `[]`); timestamps produced
by `new Date().toISOString()` are abstracted as `Int` epoch instants
(ISO round-trips preserve the instant, and the code only ever compares
`new Date(s)` values); JavaScript numbers are modelled as `ℚ` (every
value appearing in the claims is exactly representable); a rejected
promise / thrown error is an `Except.error` carrying the message;
external effects (`Date.now`, the generated UUID, the EXIF decoder's tag
value, a file's `lastModified`) are passed in as parameters.
-/

namespace LunaTrack

/-- A stored record, exactly the object literal built by
`RecordStorage.saveRecord` (storage.js lines 51–60): fields
`id, datetime, amount, memo, source, imageData, createdAt, updatedAt`,
where `imageData` is always `null` (modelled as `Option`). -/
structure Record where
  id : String
  datetime : String
  amount : ℚ
  memo : String
  source : String
  imageData : Option String
  createdAt : Int
  updatedAt : Int
deriving DecidableEq

/-- The sort relation used by `getAllRecords`:
`records.sort((a, b) => new Date(b.createdAt) - new Date(a.createdAt))`,
i.e. `a` may come before `b` when `b.createdAt ≤ a.createdAt`
(newest first).  JavaScript `Array.prototype.sort` is stable, so the
embedding uses Mathlib's stable `List.insertionSort` with this relation. -/
def byCreatedAtDesc (a b : Record) : Prop :=
  b.createdAt ≤ a.createdAt

instance : DecidableRel byCreatedAtDesc :=
  fun a b => Int.decLe b.createdAt a.createdAt

instance : IsTotal Record byCreatedAtDesc :=
  ⟨fun a b => le_total b.createdAt a.createdAt⟩

instance : IsTrans Record byCreatedAtDesc :=
  ⟨fun _ _ _ h h' => le_trans h' h⟩

/-- `RecordStorage.getAllRecords` (storage.js lines 25–38): reads the
stored list and returns it sorted newest-first by `createdAt`
(stable, so ties keep insertion order). -/
def getAllRecords (st : List Record) : List Record :=
  List.insertionSort byCreatedAtDesc st

/-- The argument object of `RecordStorage.saveRecord`; `memo` and
`source` may be absent (`undefined`). -/
structure RecordData where
  datetime : String
  amount : ℚ
  memo : Option String
  source : Option String

/-- JavaScript `x || d` for an optional string: `undefined`, `null` and
`""` are all falsy and yield the default. -/
def jsOrDefault (x : Option String) (d : String) : String :=
  match x with
  | none => d
  | some s => if s = "" then d else s

/-- `RecordStorage.saveRecord` (storage.js lines 48–73): reads (and
thereby re-sorts) the stored list, builds the new record with defaults
`memo || ''`, `source || 'manual'`, `imageData: null`,
`createdAt = updatedAt = now`, pushes it, writes the result.  Returns
the new store contents together with the saved record. -/
def saveRecord (st : List Record) (recordData : RecordData)
    (freshId : String) (now : Int) : List Record × Record :=
  let records := getAllRecords st
  let newRecord : Record :=
    { id := freshId
      datetime := recordData.datetime
      amount := recordData.amount
      memo := jsOrDefault recordData.memo ""
      source := jsOrDefault recordData.source "manual"
      imageData := none
      createdAt := now
      updatedAt := now }
  (records ++ [newRecord], newRecord)

/-- `RecordStorage.deleteRecord` (storage.js lines 111–124): filters out
every record whose id equals the argument and writes the result back.
It performs no existence check and never throws for an absent id. -/
def deleteRecord (st : List Record) (id : String) : List Record :=
  (getAllRecords st).filter (fun r => r.id ≠ id)

/-- The `updates` argument of `RecordStorage.updateRecord`: a partial
object whose present keys are spread over the stored record.  Any of
the record's keys may appear, including `id` and `createdAt`. -/
structure Updates where
  id : Option String := none
  datetime : Option String := none
  amount : Option ℚ := none
  memo : Option String := none
  source : Option String := none
  imageData : Option (Option String) := none
  createdAt : Option Int := none
  updatedAt : Option Int := none

/-- The object spread `{...records[index], ...updates, updatedAt: now}`
(storage.js lines 89–93): every key present in `updates` overwrites the
stored field — `id` and `createdAt` included — and `updatedAt` is then
unconditionally set to `now` (overriding even a supplied `updatedAt`). -/
def applyUpdates (r : Record) (u : Updates) (now : Int) : Record :=
  { id := u.id.getD r.id
    datetime := u.datetime.getD r.datetime
    amount := u.amount.getD r.amount
    memo := u.memo.getD r.memo
    source := u.source.getD r.source
    imageData := u.imageData.getD r.imageData
    createdAt := u.createdAt.getD r.createdAt
    updatedAt := now }

/-- `records.findIndex(r => r.id === id)` followed by in-place
replacement: replaces the first record whose id matches, threading the
merged record out; `none` when no record matches. -/
def updateInList (l : List Record) (id : String) (u : Updates)
    (now : Int) : Option (List Record × Record) :=
  match l with
  | [] => none
  | r :: rest =>
    if r.id = id then
      some (applyUpdates r u now :: rest, applyUpdates r u now)
    else
      (updateInList rest id u now).map (fun p => (r :: p.1, p.2))

/-- `RecordStorage.updateRecord` (storage.js lines 81–104): throws
`'Record not found'` when `findIndex` returns −1; otherwise replaces
the matched record by the spread-merge and writes the list back,
resolving with the updated record. -/
def updateRecord (st : List Record) (id : String) (u : Updates)
    (now : Int) : Except String (List Record × Record) :=
  match updateInList (getAllRecords st) id u now with
  | none => .error "Record not found"
  | some p => .ok p

/-- The export document built by `RecordStorage.exportToJSON`
(storage.js lines 188–195): exactly the three fields
`exportDate` (an ISO instant, modelled as `Int`), `version`, `records`
(the spec names them `exportTimestamp` / `formatVersion` / `records`). -/
structure ExportDoc where
  exportDate : Int
  version : String
  records : List Record
deriving DecidableEq

/-- `RecordStorage.exportToJSON`: serialises
`{exportDate: now, version: '1.0.0', records: getAllRecords()}`. -/
def exportToJSON (st : List Record) (now : Int) : ExportDoc :=
  { exportDate := now
    version := "1.0.0"
    records := getAllRecords st }

/-- A parsed import document as consumed by
`RecordStorage.importFromJSON` after `JSON.parse`: the `records` field
may be absent (`data.records || []`). -/
structure ImportDoc where
  records : Option (List Record)

/-- `RecordStorage.importFromJSON` (storage.js lines 202–222): takes a
parsed document, defaults a missing `records` field to `[]`, keeps only
incoming records whose id is not already present, appends them after
the existing records, and resolves with the count of newly added
records.  It performs no shape validation of the entries. -/
def importFromJSON (st : List Record) (doc : ImportDoc) :
    List Record × Nat :=
  let importedRecords := doc.records.getD []
  let existingRecords := getAllRecords st
  let existingIds := existingRecords.map Record.id
  let newRecords :=
    importedRecords.filter (fun r => r.id ∉ existingIds)
  (existingRecords ++ newRecords, newRecords.length)

/-- The confidence classification of `estimateFlowFromImage`
(prompt-api.js lines 131–137): default `'medium'`; `'high'` when
`10 ≤ v ≤ 40`; `'low'` when `v < 5` or `v > 45`. -/
def confidence (estimatedVolume : Int) : String :=
  if 10 ≤ estimatedVolume ∧ estimatedVolume ≤ 40 then "high"
  else if estimatedVolume < 5 ∨ 45 < estimatedVolume then "low"
  else "medium"

/-- The tail of `estimateFlowFromImage` (prompt-api.js lines 116–143)
after the model's textual reply has been `parseInt`ed (`none` = `NaN`):
a missing or out-of-range integer throws `Invalid estimation result`,
otherwise the call resolves with the volume and its confidence. -/
def estimateResult (parsed : Option Int) : Except String (Int × String) :=
  match parsed with
  | none => .error "Invalid estimation result"
  | some v =>
    if v < 0 ∨ 50 < v then .error "Invalid estimation result"
    else .ok (v, confidence v)

/-- JavaScript `s.split(sep)` for a single-character separator:
splits at every occurrence, keeping empty pieces, and returns `[s]`
(here `[""]` for the empty string) when the separator does not occur. -/
def jsSplitAux (sep : Char) : List Char → List Char → List String
  | [], acc => [String.mk acc.reverse]
  | c :: cs, acc =>
    if c = sep then String.mk acc.reverse :: jsSplitAux sep cs []
    else jsSplitAux sep cs (c :: acc)

def jsSplit (s : String) (sep : Char) : List String :=
  jsSplitAux sep s.data []

/-- JavaScript `parseInt(s, 10)`: skip leading whitespace, optional
sign, then the longest digit prefix; `NaN` (here `none`) when no digit
follows. -/
def parseJsInt (s : String) : Option Int :=
  let t := s.data.dropWhile Char.isWhitespace
  let (neg, u) :=
    match t with
    | '-' :: rest => (true, rest)
    | '+' :: rest => (false, rest)
    | _ => (false, t)
  let digits := u.takeWhile Char.isDigit
  if digits.isEmpty then none
  else
    let n : Int :=
      Int.ofNat (digits.foldl (fun acc c => 10 * acc + (c.toNat - 48)) 0)
    some (if neg then -n else n)

/-- The value of a JavaScript `Date` built by
`new Date(year, month, day, hour, minute, second)` in `parseEXIFDate`:
`invalid` when any component is `NaN`.  The components are kept as the
constructor arguments (the instant they denote is not needed by any
claim). -/
inductive JsDate
  | valid (year month day hour minute second : Int)
  | invalid
deriving DecidableEq

/-- Assemble the six `parseInt` results into the `Date` value;
any `NaN` component makes the date invalid. -/
def mkJsDate (y mo d h mi s : Option Int) : JsDate :=
  match y, mo, d, h, mi, s with
  | some y, some mo, some d, some h, some mi, some s =>
    .valid y mo d h mi s
  | _, _, _, _, _, _ => .invalid

/-- `parseEXIFDate` (popup script lines 174–188): splits the tag on a
space into date and time parts, then each part on `':'`.  When the
string contains no space, `parts[1]` is `undefined` and
`parts[1].split(':')` throws a `TypeError` — modelled as the error
case, which `extractEXIFData`'s `catch` turns into a rejection.
Missing or non-numeric components give `NaN` (`parseInt` of
`undefined` or of a non-digit string), hence an invalid date, without
throwing. -/
def parseEXIFDate (exifDateString : String) : Except String JsDate :=
  match jsSplit exifDateString ' ' with
  | [] => .error "EXIF parsing error"
  | [_] => .error "EXIF parsing error"
  | p0 :: p1 :: _ =>
    let dateParts := jsSplit p0 ':'
    let timeParts := jsSplit p1 ':'
    let y := dateParts[0]?.bind parseJsInt
    let mo := (dateParts[1]?.bind parseJsInt).map (· - 1)
    let d := dateParts[2]?.bind parseJsInt
    let h := timeParts[0]?.bind parseJsInt
    let mi := timeParts[1]?.bind parseJsInt
    let sec := timeParts[2]?.bind parseJsInt
    .ok (mkJsDate y mo d h mi sec)

/-- Which branch of `extractEXIFData` produced the timestamp (the
spec's `sourceKind`): the parsed EXIF tag, or the file's
`lastModified` fallback. -/
inductive SourceKind
  | exif
  | fileModified
deriving DecidableEq

/-- The timestamp assigned to `extractedDateTime`: either the `Date`
parsed from the tag, or `new Date(file.lastModified)`. -/
inductive ExtractedTimestamp
  | fromExif (d : JsDate)
  | fromFile (lastModified : Int)
deriving DecidableEq

structure ExtractResult where
  extractedDateTime : ExtractedTimestamp
  sourceKind : SourceKind
deriving DecidableEq

/-- `extractEXIFData` (popup script lines 146–171), with the decoder's
`DateTimeOriginal` tag value and the file's `lastModified` passed in:
a truthy (non-empty) tag is parsed with `parseEXIFDate` — a throw
inside the `try` rejects the promise with
`'EXIF parsing error: ...'` — while an absent or empty tag falls back
to the file's modification time. -/
def extractEXIFData (dateTimeOriginal : Option String)
    (fileLastModified : Int) : Except String ExtractResult :=
  match dateTimeOriginal with
  | some s =>
    if s ≠ "" then
      match parseEXIFDate s with
      | .ok d => .ok ⟨.fromExif d, .exif⟩
      | .error e => .error e
    else .ok ⟨.fromFile fileLastModified, .fileModified⟩
  | none => .ok ⟨.fromFile fileLastModified, .fileModified⟩

/-- The state of the `datetime-local` input as `handleSave` sees it:
empty (`!dateInput.value`), non-empty but not denoting a valid
instant (`new Date(v).toISOString()` throws a `RangeError`), or valid
with the resulting ISO string. -/
inductive DateInput
  | empty
  | invalidDate (raw : String)
  | validDate (iso : String)
deriving DecidableEq

/-- `handleSave` (popup script lines 202–247): rejects an empty date
input, then an amount that parses to `NaN` (`none`) or is negative —
these checks are its entire validation, there is no upper bound and no
integrality requirement — then converts the date (a non-empty invalid
date throws inside the `try`, caught and shown as a save error) and
appends via `saveRecord` with `source: 'manual'` and the trimmed memo. -/
def handleSave (st : List Record) (dateInputValue : DateInput)
    (amountParsed : Option ℚ) (memoTrimmed : String)
    (freshId : String) (now : Int) :
    Except String (List Record × Record) :=
  match dateInputValue with
  | .empty => .error "Please enter date and time"
  | .invalidDate _ =>
    match amountParsed with
    | none => .error "Please enter a valid flow amount"
    | some amount =>
      if amount < 0 then .error "Please enter a valid flow amount"
      else .error "Error saving record: RangeError"
  | .validDate iso =>
    match amountParsed with
    | none => .error "Please enter a valid flow amount"
    | some amount =>
      if amount < 0 then .error "Please enter a valid flow amount"
      else
        .ok (saveRecord st
          { datetime := iso
            amount := amount
            memo := some memoTrimmed
            source := some "manual" } freshId now)

/-- Record equality on `Except` results, for evaluating the operations
at concrete inputs. -/
instance {ε α : Type} [DecidableEq ε] [DecidableEq α] :
    DecidableEq (Except ε α) := fun x y =>
  match x, y with
  | .error e, .error e' =>
    if h : e = e' then .isTrue (by rw [h]) else .isFalse (by simp [h])
  | .error _, .ok _ => .isFalse (by simp)
  | .ok _, .error _ => .isFalse (by simp)
  | .ok a, .ok a' =>
    if h : a = a' then .isTrue (by rw [h]) else .isFalse (by simp [h])

/-- Concrete records used to instantiate the theorems at the three
creation instants 100 < 200 < 300. -/
def sampleRecord : Record :=
  { id := "rec-a"
    datetime := "2024-01-01T00:00:00.000Z"
    amount := 10
    memo := ""
    source := "manual"
    imageData := none
    createdAt := 100
    updatedAt := 100 }

def sampleRecordB : Record :=
  { sampleRecord with id := "rec-b", createdAt := 200, updatedAt := 200 }

def sampleRecordC : Record :=
  { sampleRecord with id := "rec-c", createdAt := 300, updatedAt := 300 }

theorem getAllRecords_perm (st : List Record) : (getAllRecords st).Perm st :=
  List.perm_insertionSort byCreatedAtDesc st

theorem getAllRecords_sorted (st : List Record) :
    (getAllRecords st).Sorted byCreatedAtDesc :=
  List.sorted_insertionSort byCreatedAtDesc st

theorem mem_getAllRecords {st : List Record} {r : Record} :
    r ∈ getAllRecords st ↔ r ∈ st :=
  (getAllRecords_perm st).mem_iff

theorem getAllRecords_of_sorted {st : List Record}
    (h : st.Sorted byCreatedAtDesc) : getAllRecords st = st :=
  h.insertionSort_eq

theorem getAllRecords_idem (st : List Record) :
    getAllRecords (getAllRecords st) = getAllRecords st :=
  getAllRecords_of_sorted (getAllRecords_sorted st)

/-- Stability of the read-time sort: the records carrying any fixed
`createdAt` appear in `getAllRecords` exactly in their stored
(insertion) order. -/
theorem getAllRecords_filter_stable (st : List Record) (t : Int) :
    (getAllRecords st).filter (fun r => r.createdAt = t) =
      st.filter (fun r => r.createdAt = t) := by
  have hmem : ∀ r ∈ st.filter (fun r => r.createdAt = t), r.createdAt = t := by
    intro r hr
    simpa using (List.mem_filter.mp hr).2
  have hpair : (st.filter (fun r => r.createdAt = t)).Pairwise byCreatedAtDesc := by
    refine List.pairwise_of_forall_mem_list ?_
    intro a ha b hb
    have ha' := hmem a ha
    have hb' := hmem b hb
    show b.createdAt ≤ a.createdAt
    omega
  have hsub : List.Sublist (st.filter (fun r => r.createdAt = t))
      (getAllRecords st) :=
    List.sublist_insertionSort hpair (List.filter_sublist st)
  have hsub2 := hsub.filter (fun r => decide (r.createdAt = t))
  rw [List.filter_filter] at hsub2
  simp only [Bool.and_self] at hsub2
  have hlen : ((getAllRecords st).filter (fun r => r.createdAt = t)).length =
      (st.filter (fun r => r.createdAt = t)).length :=
    ((getAllRecords_perm st).filter _).length_eq
  exact (hsub2.eq_of_length hlen.symm).symm

/-- C9: confidence classification is a pure, deterministic function of
the validated integer estimate v in [0,50]: "high" exactly on [10,40],
"low" exactly when v < 5 or v > 45, "medium" on [5,10) ∪ (40,45]; in
particular 3 ↦ low, 7 ↦ medium, 25 ↦ high, 42 ↦ medium, 48 ↦ low. -/
theorem confidence_classification (v : Int) (h0 : 0 ≤ v) (h50 : v ≤ 50) :
    estimateResult (some v) = .ok (v, confidence v) ∧
    (confidence v = "high" ↔ 10 ≤ v ∧ v ≤ 40) ∧
    (confidence v = "low" ↔ v < 5 ∨ 45 < v) ∧
    (confidence v = "medium" ↔ (5 ≤ v ∧ v < 10) ∨ (40 < v ∧ v ≤ 45)) ∧
    confidence 3 = "low" ∧ confidence 7 = "medium" ∧
    confidence 25 = "high" ∧ confidence 42 = "medium" ∧
    confidence 48 = "low" := by
  refine ⟨?_, ?_, ?_, ?_, by decide, by decide, by decide, by decide, by decide⟩
  · simp only [estimateResult]
    rw [if_neg (by omega)]
  · unfold confidence
    split_ifs with h1 h2
    · exact iff_of_true rfl h1
    · exact iff_of_false (by decide) h1
    · exact iff_of_false (by decide) h1
  · unfold confidence
    split_ifs with h1 h2
    · exact iff_of_false (by decide) (by omega)
    · exact iff_of_true rfl h2
    · exact iff_of_false (by decide) h2
  · unfold confidence
    split_ifs with h1 h2
    · exact iff_of_false (by decide) (by omega)
    · exact iff_of_false (by decide) (by omega)
    · exact iff_of_true rfl (by omega)

/-- Witness for C9 at the concrete estimate v = 42. -/
theorem confidence_classification_witness :
    estimateResult (some 42) = .ok (42, confidence 42) ∧
    (confidence 42 = "high" ↔ 10 ≤ (42 : Int) ∧ (42 : Int) ≤ 40) ∧
    (confidence 42 = "low" ↔ (42 : Int) < 5 ∨ 45 < (42 : Int)) ∧
    (confidence 42 = "medium" ↔
      (5 ≤ (42 : Int) ∧ (42 : Int) < 10) ∨ (40 < (42 : Int) ∧ (42 : Int) ≤ 45)) ∧
    confidence 3 = "low" ∧ confidence 7 = "medium" ∧
    confidence 25 = "high" ∧ confidence 42 = "medium" ∧
    confidence 48 = "low" :=
  confidence_classification 42 (by decide) (by decide)

/-- C7: exportSnapshot yields a document with exactly the fields
exportDate (the current instant — the spec's exportTimestamp),
version (a fixed version string — the spec's formatVersion) and
records, the latter holding every stored record verbatim. -/
theorem export_snapshot_spec (st : List Record) (now : Int) :
    exportToJSON st now =
      { exportDate := now, version := "1.0.0", records := getAllRecords st } ∧
    ((exportToJSON st now).records).Perm st ∧
    (∀ r ∈ st, r ∈ (exportToJSON st now).records) :=
  ⟨rfl, getAllRecords_perm st, fun _ hr => mem_getAllRecords.mpr hr⟩

/-- Witness for C7 on a one-record store. -/
theorem export_snapshot_witness :
    sampleRecord ∈ (exportToJSON [sampleRecord] 42).records :=
  (export_snapshot_spec [sampleRecord] 42).2.2 sampleRecord (by decide)

/-- C8: listAll returns every record, sorted by createdAt descending
(newest first), ties broken by insertion order (the sort is stable),
and deterministically so; records created at instants 100 < 200 < 300
in that order come back newest-first. -/
theorem list_all_order_spec (st : List Record) :
    (getAllRecords st).Perm st ∧
    (getAllRecords st).Sorted byCreatedAtDesc ∧
    (∀ t : Int, (getAllRecords st).filter (fun r => r.createdAt = t) =
      st.filter (fun r => r.createdAt = t)) ∧
    getAllRecords [sampleRecord, sampleRecordB, sampleRecordC] =
      [sampleRecordC, sampleRecordB, sampleRecord] :=
  ⟨getAllRecords_perm st, getAllRecords_sorted st,
    fun t => getAllRecords_filter_stable st t, by decide⟩

/-- C10: saveRecord stores a missing or empty memo as "", a missing
source as "manual", and always sets imageData to null; the created
record (imageData included) then appears verbatim in any subsequent
export document. -/
theorem save_record_defaults_spec (st : List Record) (rd : RecordData)
    (freshId : String) (now exportNow : Int) :
    (rd.memo = none → (saveRecord st rd freshId now).2.memo = "") ∧
    (rd.memo = some "" → (saveRecord st rd freshId now).2.memo = "") ∧
    (rd.source = none → (saveRecord st rd freshId now).2.source = "manual") ∧
    (saveRecord st rd freshId now).2.imageData = none ∧
    (saveRecord st rd freshId now).2 ∈
      (exportToJSON (saveRecord st rd freshId now).1 exportNow).records := by
  refine ⟨?_, ?_, ?_, rfl, ?_⟩
  · intro h
    simp [saveRecord, jsOrDefault, h]
  · intro h
    simp [saveRecord, jsOrDefault, h]
  · intro h
    simp [saveRecord, jsOrDefault, h]
  · simp only [exportToJSON]
    exact mem_getAllRecords.mpr (by simp [saveRecord])

/-- Witness for C10: a create request with memo and source absent. -/
theorem save_record_defaults_witness :
    (saveRecord [] ⟨"2024-01-01T00:00:00.000Z", 10, none, none⟩ "id-w" 5).2.memo = "" ∧
    (saveRecord [] ⟨"2024-01-01T00:00:00.000Z", 10, none, none⟩ "id-w" 5).2.source = "manual" ∧
    (saveRecord [] ⟨"2024-01-01T00:00:00.000Z", 10, none, none⟩ "id-w" 5).2.imageData = none ∧
    (saveRecord [] ⟨"2024-01-01T00:00:00.000Z", 10, none, none⟩ "id-w" 5).2 ∈
      (exportToJSON (saveRecord [] ⟨"2024-01-01T00:00:00.000Z", 10, none, none⟩ "id-w" 5).1 6).records := by
  have h := save_record_defaults_spec [] ⟨"2024-01-01T00:00:00.000Z", 10, none, none⟩ "id-w" 5 6
  exact ⟨h.1 rfl, h.2.2.1 rfl, h.2.2.2.1, h.2.2.2.2⟩

/-- C2: importMerge keeps every existing record untouched (the stored
prefix is exactly the prior contents), appends exactly the incoming
records whose id is not already present — as-is, with their own id,
timestamps and source — skips the colliders, and returns the count of
newly added records; importing a store's own just-exported snapshot
adds 0 records and leaves listAll unchanged. -/
theorem import_merge_spec (st : List Record) (doc : ImportDoc) (now : Int) :
    ((importFromJSON st doc).1.take (getAllRecords st).length =
      getAllRecords st) ∧
    (∀ r ∈ doc.records.getD [], r.id ∉ st.map Record.id →
      r ∈ (importFromJSON st doc).1) ∧
    (∀ r ∈ (importFromJSON st doc).1, r ∈ st ∨ r ∈ doc.records.getD []) ∧
    ((importFromJSON st doc).2 =
      ((doc.records.getD []).filter
        (fun r => r.id ∉ st.map Record.id)).length) ∧
    importFromJSON st ⟨some (exportToJSON st now).records⟩ =
      (getAllRecords st, 0) ∧
    getAllRecords
        (importFromJSON st ⟨some (exportToJSON st now).records⟩).1 =
      getAllRecords st := by
  have hids : ∀ r : Record,
      (r.id ∈ (getAllRecords st).map Record.id) ↔ r.id ∈ st.map Record.id :=
    fun r => ((getAllRecords_perm st).map Record.id).mem_iff
  have hself : importFromJSON st ⟨some (exportToJSON st now).records⟩ =
      (getAllRecords st, 0) := by
    have hnil : (getAllRecords st).filter
        (fun r => r.id ∉ (getAllRecords st).map Record.id) = [] := by
      rw [List.filter_eq_nil_iff]
      intro r hr
      simp only [decide_not, Bool.not_eq_true', decide_eq_false_iff_not,
        Decidable.not_not]
      exact List.mem_map_of_mem Record.id hr
    simp only [importFromJSON, exportToJSON, Option.getD_some, hnil,
      List.append_nil, List.length_nil]
  refine ⟨?_, ?_, ?_, ?_, hself, ?_⟩
  · exact List.take_left _ _
  · intro r hr hfresh
    refine List.mem_append_right _ ?_
    rw [List.mem_filter]
    refine ⟨hr, ?_⟩
    simp only [decide_not, Bool.not_eq_true', decide_eq_false_iff_not]
    exact fun hmem => hfresh ((hids r).mp hmem)
  · intro r hr
    rcases List.mem_append.mp hr with h | h
    · exact Or.inl (mem_getAllRecords.mp h)
    · exact Or.inr (List.mem_filter.mp h).1
  · show ((doc.records.getD []).filter
        (fun r => r.id ∉ (getAllRecords st).map Record.id)).length = _
    congr 1
    apply List.filter_congr
    intro r _
    simp only [decide_not]
    exact congrArg Bool.not (decide_eq_decide.mpr (hids r))
  · rw [hself]
    exact getAllRecords_idem st

/-- Witness for C2: importing one fresh record and one collider into a
one-record store appends exactly the fresh record and reports 1. -/
theorem import_merge_witness :
    sampleRecordB ∈
      (importFromJSON [sampleRecord]
        ⟨some [sampleRecordB, sampleRecord]⟩).1 ∧
    (importFromJSON [sampleRecord]
        ⟨some [sampleRecordB, sampleRecord]⟩).2 = 1 := by
  have h := import_merge_spec [sampleRecord]
    ⟨some [sampleRecordB, sampleRecord]⟩ 0
  exact ⟨h.2.1 sampleRecordB (by decide) (by decide),
    h.2.2.2.1.trans (by decide)⟩

/-- C6 (amended): a parsed import document lacking a records field is
treated as carrying an empty record list — importFromJSON succeeds,
adds 0 records and leaves the store contents unchanged; no
ImportFormatError exists in the code and entries are never
shape-validated. -/
theorem import_missing_records_spec (st : List Record) :
    importFromJSON st ⟨none⟩ = (getAllRecords st, 0) ∧
    (importFromJSON st ⟨none⟩).1.Perm st ∧
    getAllRecords (importFromJSON st ⟨none⟩).1 = getAllRecords st := by
  have h : importFromJSON st ⟨none⟩ = (getAllRecords st, 0) := by
    simp [importFromJSON]
  refine ⟨h, ?_, ?_⟩
  · rw [h]
    exact getAllRecords_perm st
  · rw [h]
    exact getAllRecords_idem st

/-- Counterexample to C6 as stated: the parsed document with no
records field does not fail with ImportFormatError — importing it into
a one-record store resolves normally, adding 0 records and leaving the
store as it was. -/
theorem import_missing_records_counterexample :
    importFromJSON [sampleRecord] ⟨none⟩ = ([sampleRecord], 0) := by decide

/-- When ids are unique and `id` occurs, filtering it out removes
exactly one record. -/
theorem filter_id_ne_length {l : List Record} {id : String}
    (hnodup : (l.map Record.id).Nodup) (hmem : id ∈ l.map Record.id) :
    (l.filter (fun r => r.id ≠ id)).length + 1 = l.length := by
  induction l with
  | nil => simp at hmem
  | cons r rest ih =>
    simp only [List.map_cons, List.nodup_cons] at hnodup
    by_cases h : r.id = id
    · have hrest : rest.filter (fun x => x.id ≠ id) = rest := by
        rw [List.filter_eq_self]
        intro x hx
        simp only [ne_eq, decide_not, Bool.not_eq_true', decide_eq_false_iff_not]
        intro hxid
        exact hnodup.1 (h ▸ hxid ▸ List.mem_map_of_mem Record.id hx)
      simp [List.filter_cons, h, hrest]
      intro a ha haid
      exact hnodup.1 (h ▸ haid ▸ List.mem_map_of_mem Record.id ha)
    · have hmem' : id ∈ rest.map Record.id := by
        rcases (by simpa using hmem : id = r.id ∨ ∃ a ∈ rest, a.id = id)
          with h' | ⟨a, ha, haid⟩
        · exact absurd h'.symm h
        · exact haid ▸ List.mem_map_of_mem Record.id ha
      have hlen := ih hnodup.2 hmem'
      rw [List.filter_cons]
      have hcond : (decide (r.id ≠ id)) = true := by simp [h]
      rw [if_pos hcond]
      simp only [List.length_cons]
      omega

/-- C4 (amended): delete never fails — an absent id is a silent no-op
that leaves the store contents unchanged, while a present id (under
the store's unique-id invariant) removes exactly the one matching
record and keeps every other record. -/
theorem delete_record_spec (st : List Record) (id : String) :
    (id ∉ st.map Record.id → (deleteRecord st id).Perm st) ∧
    (∀ r ∈ st, r.id ≠ id → r ∈ deleteRecord st id) ∧
    (∀ r ∈ deleteRecord st id, r.id ≠ id ∧ r ∈ st) ∧
    ((st.map Record.id).Nodup → id ∈ st.map Record.id →
      (deleteRecord st id).length + 1 = st.length) := by
  refine ⟨?_, ?_, ?_, ?_⟩
  · intro habs
    have hall : (getAllRecords st).filter (fun r => r.id ≠ id) =
        getAllRecords st := by
      rw [List.filter_eq_self]
      intro r hr
      simp only [decide_not, Bool.not_eq_true', decide_eq_false_iff_not]
      exact fun h => habs (h ▸ List.mem_map_of_mem Record.id
        (mem_getAllRecords.mp hr))
    show List.Perm ((getAllRecords st).filter (fun r => r.id ≠ id)) st
    rw [hall]
    exact getAllRecords_perm st
  · intro r hr hne
    show r ∈ (getAllRecords st).filter (fun r => r.id ≠ id)
    rw [List.mem_filter]
    exact ⟨mem_getAllRecords.mpr hr, by simpa using hne⟩
  · intro r hr
    have h := List.mem_filter.mp hr
    exact ⟨by simpa using h.2, mem_getAllRecords.mp h.1⟩
  · intro hnodup hmem
    have hperm := getAllRecords_perm st
    have hnodup' : ((getAllRecords st).map Record.id).Nodup :=
      ((hperm.map Record.id).nodup_iff).mpr hnodup
    have hmem' : id ∈ (getAllRecords st).map Record.id :=
      ((hperm.map Record.id).mem_iff).mpr hmem
    have h := filter_id_ne_length hnodup' hmem'
    show ((getAllRecords st).filter (fun r => r.id ≠ id)).length + 1 = st.length
    rw [h, hperm.length_eq]

/-- Witness for C4: deleting an id absent from a one-record store
leaves its contents unchanged, and deleting the present id empties it. -/
theorem delete_record_witness :
    (deleteRecord [sampleRecord] "no-such-id").Perm [sampleRecord] ∧
    (deleteRecord [sampleRecord] "rec-a").length + 1 = 1 := by
  refine ⟨(delete_record_spec [sampleRecord] "no-such-id").1 (by decide), ?_⟩
  exact (delete_record_spec [sampleRecord] "rec-a").2.2.2 (by decide) (by decide)

/-- Counterexample to C4 as stated: deleting the nonexistent id
"no-such-id" from a one-record store does not fail with NotFoundError —
it resolves normally with the store unchanged. -/
theorem delete_record_counterexample :
    deleteRecord [sampleRecord] "no-such-id" = [sampleRecord] := by decide

theorem updateInList_none {l : List Record} {id : String} (u : Updates)
    (now : Int) (h : ∀ r ∈ l, r.id ≠ id) : updateInList l id u now = none := by
  induction l with
  | nil => rfl
  | cons r rest ih =>
    simp only [updateInList]
    rw [if_neg (h r (List.mem_cons_self r rest))]
    rw [ih (fun x hx => h x (List.mem_cons_of_mem r hx))]
    rfl

theorem updateInList_found {b : List Record} {r : Record} {a : List Record}
    {id : String} (u : Updates) (now : Int)
    (hb : ∀ x ∈ b, x.id ≠ id) (hr : r.id = id) :
    updateInList (b ++ r :: a) id u now =
      some (b ++ applyUpdates r u now :: a, applyUpdates r u now) := by
  induction b with
  | nil =>
    simp only [List.nil_append, updateInList]
    rw [if_pos hr]
  | cons x rest ih =>
    simp only [List.cons_append, updateInList, List.append_eq]
    rw [if_neg (hb x (List.mem_cons_self x rest))]
    rw [ih (fun y hy => hb y (List.mem_cons_of_mem x hy))]
    rfl

theorem updateInList_updatedAt {l : List Record} {id : String}
    {u : Updates} {now : Int} {p : List Record × Record}
    (h : updateInList l id u now = some p) : p.2.updatedAt = now := by
  induction l generalizing p with
  | nil => exact absurd h (by simp [updateInList])
  | cons r rest ih =>
    simp only [updateInList] at h
    by_cases hid : r.id = id
    · rw [if_pos hid] at h
      cases h
      rfl
    · rw [if_neg hid] at h
      rcases hq : updateInList rest id u now with _ | q
      · rw [hq] at h
        exact Option.noConfusion h
      · rw [hq] at h
        simp only [Option.map_some', Option.some.injEq] at h
        have h2 := ih hq
        rw [← h]
        exact h2

/-- C5 (amended): update of an absent id fails with the not-found
error; otherwise exactly the first matching record is replaced by the
spread-merge of the supplied fields — in which a supplied id or
createdAt overwrites the stored one rather than being ignored — and
updatedAt is always refreshed to now (a supplied updatedAt is the one
field that is overridden). -/
theorem update_record_spec (st : List Record) (id : String) (u : Updates)
    (now : Int) :
    ((∀ r ∈ st, r.id ≠ id) →
      updateRecord st id u now = .error "Record not found") ∧
    (∀ b r a, getAllRecords st = b ++ r :: a → (∀ x ∈ b, x.id ≠ id) →
      r.id = id →
      updateRecord st id u now =
        .ok (b ++ applyUpdates r u now :: a, applyUpdates r u now)) ∧
    (∀ p, updateRecord st id u now = .ok p → p.2.updatedAt = now) ∧
    (∀ r, (applyUpdates r u now).id = u.id.getD r.id ∧
      (applyUpdates r u now).createdAt = u.createdAt.getD r.createdAt ∧
      (applyUpdates r u now).updatedAt = now) := by
  refine ⟨?_, ?_, ?_, fun r => ⟨rfl, rfl, rfl⟩⟩
  · intro h
    have hnone : updateInList (getAllRecords st) id u now = none :=
      updateInList_none u now (fun r hr => h r (mem_getAllRecords.mp hr))
    simp only [updateRecord, hnone]
  · intro b r a heq hb hr
    have hfound := updateInList_found (b := b) (r := r) (a := a) u now hb hr
    simp only [updateRecord, heq, hfound]
  · intro p hp
    rcases hq : updateInList (getAllRecords st) id u now with _ | q
    · simp only [updateRecord, hq] at hp
      exact Except.noConfusion hp
    · simp only [updateRecord, hq, Except.ok.injEq] at hp
      rw [← hp]
      exact updateInList_updatedAt hq

/-- Witness for C5 on a one-record store: the absent-id error, and the
in-place merge of a memo update that refreshes updatedAt. -/
theorem update_record_witness :
    updateRecord [sampleRecord] "no-such-id" { memo := some "x" } 999 =
      .error "Record not found" ∧
    updateRecord [sampleRecord] "rec-a" { memo := some "x" } 999 =
      .ok ([{ sampleRecord with memo := "x", updatedAt := 999 }],
        { sampleRecord with memo := "x", updatedAt := 999 }) := by
  constructor
  · exact (update_record_spec [sampleRecord] "no-such-id"
      { memo := some "x" } 999).1 (by decide)
  · have h := (update_record_spec [sampleRecord] "rec-a"
      { memo := some "x" } 999).2.1 [] sampleRecord [] (by decide)
      (by decide) (by decide)
    exact h.trans (by decide)

/-- Counterexample to C5 as stated: an update whose partialFields
carry id and createdAt does not ignore them — both overwrite the
stored record's supposedly immutable fields. -/
theorem update_record_counterexample :
    updateRecord [sampleRecord] "rec-a"
        { id := some "hijacked", createdAt := some 777 } 999 =
      .ok ([{ sampleRecord with
                id := "hijacked"
                createdAt := 777
                updatedAt := 999 }],
        { sampleRecord with
            id := "hijacked"
            createdAt := 777
            updatedAt := 999 }) := by decide

/-- C1 (amended): the create path rejects exactly an empty date
input, an amount parsing to NaN, a negative amount, or a non-empty
invalid date; it has no upper-bound and no integrality check, so every
non-negative finite amount (51 and 3.5 included) is accepted, and on
acceptance exactly one record built from the inputs is appended. -/
theorem handle_save_spec (st : List Record) (d : DateInput)
    (amountParsed : Option ℚ) (memoTrimmed freshId : String) (now : Int) :
    (handleSave st .empty amountParsed memoTrimmed freshId now =
      .error "Please enter date and time") ∧
    (d ≠ .empty → handleSave st d none memoTrimmed freshId now =
      .error "Please enter a valid flow amount") ∧
    (∀ a : ℚ, a < 0 → d ≠ .empty →
      handleSave st d (some a) memoTrimmed freshId now =
        .error "Please enter a valid flow amount") ∧
    (∀ raw, ∀ a : ℚ, 0 ≤ a →
      handleSave st (.invalidDate raw) (some a) memoTrimmed freshId now =
        .error "Error saving record: RangeError") ∧
    (∀ iso, ∀ a : ℚ, 0 ≤ a →
      handleSave st (.validDate iso) (some a) memoTrimmed freshId now =
        .ok (getAllRecords st ++
          [{ id := freshId
             datetime := iso
             amount := a
             memo := memoTrimmed
             source := "manual"
             imageData := none
             createdAt := now
             updatedAt := now }],
          { id := freshId
            datetime := iso
            amount := a
            memo := memoTrimmed
            source := "manual"
            imageData := none
            createdAt := now
            updatedAt := now })) := by
  refine ⟨rfl, ?_, ?_, ?_, ?_⟩
  · intro hne
    cases d with
    | empty => exact absurd rfl hne
    | invalidDate raw => rfl
    | validDate iso => rfl
  · intro a ha hne
    cases d with
    | empty => exact absurd rfl hne
    | invalidDate raw =>
      simp only [handleSave]
      rw [if_pos ha]
    | validDate iso =>
      simp only [handleSave]
      rw [if_pos ha]
  · intro raw a ha
    simp only [handleSave]
    rw [if_neg (not_lt.mpr ha)]
  · intro iso a ha
    simp only [handleSave]
    rw [if_neg (not_lt.mpr ha)]
    simp only [saveRecord, jsOrDefault]
    by_cases h : memoTrimmed = ""
    · rw [if_pos h, if_neg (by decide : ¬ ("manual" : String) = "")]
      rw [h]
    · rw [if_neg h, if_neg (by decide : ¬ ("manual" : String) = "")]

/-- Witness for C1's amended statement: a negative amount is rejected
and a valid request is appended. -/
theorem handle_save_witness :
    handleSave [] (.validDate "2024-01-01T00:00:00.000Z") (some (-1)) ""
      "id-3" 5 = .error "Please enter a valid flow amount" ∧
    handleSave [] (.validDate "2024-01-01T00:00:00.000Z") (some 10) "hi"
      "id-3" 5 =
      .ok ([{ id := "id-3"
              datetime := "2024-01-01T00:00:00.000Z"
              amount := 10
              memo := "hi"
              source := "manual"
              imageData := none
              createdAt := 5
              updatedAt := 5 }],
        { id := "id-3"
          datetime := "2024-01-01T00:00:00.000Z"
          amount := 10
          memo := "hi"
          source := "manual"
          imageData := none
          createdAt := 5
          updatedAt := 5 }) := by
  constructor
  · exact (handle_save_spec [] (.validDate "2024-01-01T00:00:00.000Z")
      (some (-1)) "" "id-3" 5).2.2.1 (-1) (by norm_num) (by decide)
  · have h := (handle_save_spec [] (.validDate "2024-01-01T00:00:00.000Z")
      (some 10) "hi" "id-3" 5).2.2.2.2 "2024-01-01T00:00:00.000Z" 10
      (by norm_num)
    exact h.trans (by decide)

/-- Counterexample to C1 as stated: amount = 51 (outside [0,50]) and
amount = 3.5 (not an integer) are both accepted — the create operation
resolves and appends a record instead of failing with
ValidationError. -/
theorem handle_save_counterexample :
    handleSave [] (.validDate "2024-01-01T00:00:00.000Z") (some 51) ""
      "id-1" 5 =
      .ok ([{ id := "id-1"
              datetime := "2024-01-01T00:00:00.000Z"
              amount := 51
              memo := ""
              source := "manual"
              imageData := none
              createdAt := 5
              updatedAt := 5 }],
        { id := "id-1"
          datetime := "2024-01-01T00:00:00.000Z"
          amount := 51
          memo := ""
          source := "manual"
          imageData := none
          createdAt := 5
          updatedAt := 5 }) := by decide

theorem jsSplitAux_length (sep : Char) (cs acc : List Char) :
    (jsSplitAux sep cs acc).length = cs.countP (fun c => c = sep) + 1 := by
  induction cs generalizing acc with
  | nil => simp [jsSplitAux]
  | cons c cs' ih =>
    simp only [jsSplitAux, List.countP_cons]
    by_cases h : c = sep
    · rw [if_pos h]
      simp only [List.length_cons, ih]
      simp [h]
    · rw [if_neg h]
      rw [ih]
      simp [h]

/-- A string splits into a single piece exactly when the separator
does not occur in it. -/
theorem jsSplit_length_one_iff {s : String} {sep : Char} :
    (jsSplit s sep).length = 1 ↔ sep ∉ s.data := by
  rw [jsSplit, jsSplitAux_length]
  constructor
  · intro h hmem
    have h0 : s.data.countP (fun c => c = sep) = 0 := by omega
    have h1 := List.countP_eq_zero.mp h0 sep hmem
    simp at h1
  · intro h
    have h0 : s.data.countP (fun c => c = sep) = 0 := by
      rw [List.countP_eq_zero]
      intro a ha
      simp only [decide_eq_true_eq]
      exact fun he => h (he ▸ ha)
    omega

/-- C3 (amended): extraction falls back to the file's last-modified
timestamp (sourceKind fileModified) exactly when the capture-time tag
is absent or empty; a present malformed tag is not downgraded — if it
lacks the space separator the decode throws and the extraction step
rejects, surfacing the EXIF parsing error to its caller, and if it has
a space it yields a (possibly invalid) EXIF-derived timestamp. -/
theorem extract_exif_spec (s : String) (lastModified : Int) :
    (extractEXIFData none lastModified =
      .ok ⟨.fromFile lastModified, .fileModified⟩) ∧
    (extractEXIFData (some "") lastModified =
      .ok ⟨.fromFile lastModified, .fileModified⟩) ∧
    (s ≠ "" → ' ' ∉ s.data →
      extractEXIFData (some s) lastModified = .error "EXIF parsing error") ∧
    (s ≠ "" → ' ' ∈ s.data →
      ∃ d, extractEXIFData (some s) lastModified =
        .ok ⟨.fromExif d, .exif⟩) := by
  refine ⟨rfl, ?_, ?_, ?_⟩
  · simp only [extractEXIFData]
    rw [if_neg (by simp)]
  · intro hne hnospace
    have hlen : (jsSplit s ' ').length = 1 :=
      jsSplit_length_one_iff.mpr hnospace
    obtain ⟨p0, hp0⟩ := List.length_eq_one.mp hlen
    simp only [extractEXIFData]
    rw [if_pos hne]
    simp only [parseEXIFDate, hp0]
  · intro hne hspace
    rcases hsp : jsSplit s ' ' with _ | ⟨p0, rest⟩
    · have := jsSplitAux_length ' ' s.data []
      rw [jsSplit] at hsp
      rw [hsp] at this
      simp at this
    · rcases rest with _ | ⟨p1, rest'⟩
      · have h1 : (jsSplit s ' ').length = 1 := by rw [hsp]; rfl
        exact absurd (jsSplit_length_one_iff.mp h1) (by simpa using hspace)
      · simp only [extractEXIFData, parseEXIFDate, hsp, hne, ne_eq,
          not_false_eq_true, if_true]
        exact ⟨_, rfl⟩

/-- Witness for C3's amended statement: the absent-tag fallback and the
spaceless-tag rejection, at concrete inputs. -/
theorem extract_exif_witness :
    extractEXIFData none 3 = .ok ⟨.fromFile 3, .fileModified⟩ ∧
    extractEXIFData (some "garbage") 3 = .error "EXIF parsing error" := by
  have h := extract_exif_spec "garbage" 3
  exact ⟨h.1, h.2.2.1 (by decide) (by decide)⟩

/-- Counterexample to C3 as stated: the malformed tag
"2024:12:25T14:30:45" (no space separator) does not fall back to the
file's modification time — extraction rejects with the EXIF parsing
error, which the caller surfaces. -/
theorem extract_exif_counterexample :
    extractEXIFData (some "2024:12:25T14:30:45") 0 =
      .error "EXIF parsing error" := by decide

end LunaTrack
